import Mathlib

/-!
Shallow embedding of the Infrafix upload service (`src/main.py`).

The service is a single FastAPI handler `upload_image` plus a health check.
The handler:
  * derives `file_ext = Path(file.filename).suffix`,
  * builds `file_id = uuid4().hex + file_ext`,
  * writes the raw bytes verbatim to `UPLOAD_DIR / file_id`,
  * decodes the written file with `Image.open`,
  * sharpens, then overlays the text "InfraFix AI Preview" at (10, 10) in
    red, with `arial.ttf` at 24pt when it loads and the default font otherwise,
  * saves the result to `PROCESSED_DIR / file_id` (Pillow chooses the output
    format from the path's extension),
  * answers with a `FileResponse` whose media type is `image/png` and whose
    suggested filename is `processed_` + the original filename;
any exception anywhere is turned into a 500 JSON response `{"error": str(e)}`.

The imaging library (Pillow) is external to the repository; the pieces of its
documented behaviour that the handler exercises are modelled explicitly below
(`filterSharpen`, `drawText`, `pilSave`, `formatForExt`, `canSave`), and image
decoding is a parameter of the embedded handler, since the handler treats it
as an opaque, possibly failing step.  Machine randomness (`uuid.uuid4().hex`)
is modelled by quantifying over any 32-character lowercase-hex token.
-/

namespace Infrafix

/-- Model of Python's `pathlib.PurePath.suffix` for POSIX paths: take the final
path component (chars after the last `/`, ignoring trailing slashes), find the
last `.` at index `i`, and return the slice from `i` when `0 < i < len - 1`,
else the empty string.  (`pathlib` also prunes `.` and `..` components, but
those components have empty suffix under this rule as well, so the computed
suffix agrees.)  `finalRev` computes the final component in reverse order;
`suffixCore` applies the slicing rule to it. -/
def finalRev (l : List Char) : List Char :=
  (l.reverse.dropWhile (fun c => c == '/')).takeWhile (fun c => c != '/')

def suffixCore (l : List Char) : List Char :=
  if 0 < ((finalRev l).takeWhile (fun c => c != '.')).length ∧
      ((finalRev l).takeWhile (fun c => c != '.')).length + 1 < (finalRev l).length then
    '.' :: ((finalRev l).takeWhile (fun c => c != '.')).reverse
  else
    []

def pathSuffix (p : String) : String :=
  String.mk (suffixCore p.data)

/-- A lowercase hexadecimal digit, the alphabet of `uuid.uuid4().hex`. -/
def isHexChar (c : Char) : Bool :=
  decide ('0' ≤ c ∧ c ≤ '9') || decide ('a' ≤ c ∧ c ≤ 'f')

/-- `uuid.uuid4().hex` is always 32 lowercase hexadecimal characters. -/
def isUuidHex (s : String) : Bool :=
  s.data.length == 32 && s.data.all isHexChar

/-- `file_id = f"{uuid.uuid4().hex}{file_ext}"` with
`file_ext = Path(file.filename).suffix`  (main.py lines 41-42). -/
def mkFileId (token filename : String) : String :=
  token ++ pathSuffix filename

/-- Pixel layouts of the decoded image that the handler can meet.  Only the
distinctions Pillow's JPEG encoder cares about are kept. -/
inductive ImgMode where
  | RGB
  | RGBA
  | L
  | P
deriving DecidableEq, Repr

/-- Printable name Pillow uses for a mode in its error messages. -/
def modeName : ImgMode → String
  | ImgMode.RGB => "RGB"
  | ImgMode.RGBA => "RGBA"
  | ImgMode.L => "L"
  | ImgMode.P => "P"

/-- Output encodings relevant to the handler (a subset of Pillow's registered
formats; every other extension maps to a save error just like an unknown one
would need separate modelling, so only these are distinguished). -/
inductive ImgFormat where
  | png
  | jpeg
  | gif
  | bmp
deriving DecidableEq, Repr

/-- Printable name Pillow uses for a format. -/
def formatName : ImgFormat → String
  | ImgFormat.png => "PNG"
  | ImgFormat.jpeg => "JPEG"
  | ImgFormat.gif => "GIF"
  | ImgFormat.bmp => "BMP"

/-- The font argument passed to `draw.text`: either the requested truetype
font or, when loading it failed, `ImageFont.load_default()`
(main.py lines 57-61). -/
inductive FontSpec where
  | truetype (path : String) (size : Nat)
  | fallbackDefault
deriving DecidableEq, Repr

/-- Operations recorded on an image by the transformation pipeline. -/
inductive ImgOp where
  | sharpen
  | text (pos : Nat × Nat) (s : String) (fill : String) (font : FontSpec)
deriving DecidableEq, Repr

/-- A decoded in-memory image: dimensions, pixel mode, and the list of
pipeline operations applied to it so far.  Pillow's `filter` and
`ImageDraw.text` both leave size and mode unchanged. -/
structure PILImage where
  width : Nat
  height : Nat
  mode : ImgMode
  ops : List ImgOp
deriving DecidableEq, Repr

/-- The image produced by a successful sharpen: same size and mode, with the
convolution recorded. -/
def sharpened (im : PILImage) : PILImage :=
  { im with ops := im.ops ++ [ImgOp.sharpen] }

/-- `img.filter(ImageFilter.SHARPEN)` (main.py line 55):
`ImageFilter.BuiltinFilter.filter` first raises
`ValueError("cannot filter palette images")` when the image's mode is `P`;
otherwise the whole-image convolution runs and the result has the same size
and mode. -/
def filterSharpen (im : PILImage) : Except String PILImage :=
  if im.mode = ImgMode.P then
    Except.error "cannot filter palette images"
  else
    Except.ok (sharpened im)

/-- `draw.text((10,10), ..., fill=..., font=...)` via `ImageDraw.Draw`
(main.py lines 56-62): draws onto the image in place; same size and mode. -/
def drawText (im : PILImage) (pos : Nat × Nat) (s fill : String) (font : FontSpec) : PILImage :=
  { im with ops := im.ops ++ [ImgOp.text pos s fill font] }

/-- The fixed transformation pipeline of the handler (main.py lines 55-62):
sharpen (which raises on palette images), then overlay "InfraFix AI Preview"
in red at (10, 10).  `fontOk` records whether
`ImageFont.truetype("arial.ttf", 24)` succeeded; on any failure the bare
`except` substitutes `ImageFont.load_default()`. -/
def transform (fontOk : Bool) (img : PILImage) : Except String PILImage :=
  match filterSharpen img with
  | Except.error e => Except.error e
  | Except.ok processed =>
    Except.ok (drawText processed (10, 10) "InfraFix AI Preview" "red"
      (if fontOk then FontSpec.truetype "arial.ttf" 24 else FontSpec.fallbackDefault))

/-- ASCII lowercasing of a string, as `str.lower()` behaves on extensions
(character by character; extensionally `String.toLower`, but defined on the
character list directly). -/
def strLower (s : String) : String :=
  String.mk (s.data.map Char.toLower)

/-- Pillow's extension registry restricted to the formats modelled here; the
lookup key is the lowercased extension of the save path. -/
def formatForExt : String → Option ImgFormat
  | ".png" => some ImgFormat.png
  | ".jpg" => some ImgFormat.jpeg
  | ".jpeg" => some ImgFormat.jpeg
  | ".gif" => some ImgFormat.gif
  | ".bmp" => some ImgFormat.bmp
  | _ => none

/-- Whether Pillow's encoder for `fmt` accepts an image of mode `m` directly:
the JPEG encoder rejects alpha and palette modes
("cannot write mode RGBA as JPEG"); the other modelled encoders accept all
four modes. -/
def canSave (fmt : ImgFormat) (m : ImgMode) : Bool :=
  match fmt with
  | ImgFormat.jpeg => m == ImgMode.RGB || m == ImgMode.L
  | _ => true

/-- `processed_img.save(processed_path)` (main.py line 66) with no explicit
format: Pillow derives the format from the path's lowercased extension,
raising `ValueError("unknown file extension: ...")` when the extension is
unknown or empty, and an `OSError` when the encoder rejects the image's mode.
The directory part of the path carries no extension information, so the model
takes the stored filename. -/
def pilSave (img : PILImage) (path : String) : Except String ImgFormat :=
  match formatForExt (strLower (pathSuffix path)) with
  | none => Except.error ("unknown file extension: " ++ pathSuffix path)
  | some fmt =>
    if canSave fmt img.mode then
      Except.ok fmt
    else
      Except.error ("cannot write mode " ++ modeName img.mode ++ " as " ++ formatName fmt)

/-- A processed image as persisted: the in-memory image plus the encoding
Pillow chose when writing it. -/
structure EncodedImage where
  image : PILImage
  format : ImgFormat
deriving DecidableEq, Repr

/-- The two flat directories, keyed by stored filename; most recent write
first.  `uploads` holds raw bytes, `processed` holds encoded images. -/
structure Stores where
  uploads : List (String × List Nat)
  processed : List (String × EncodedImage)
deriving DecidableEq, Repr

/-- What the handler returns: either a `FileResponse` (status, media type,
suggested download filename, path of the served file) or a
`JSONResponse({"error": msg}, status_code)` (main.py lines 69-76). -/
inductive UploadResponse where
  | fileResponse (status : Nat) (mediaType : String) (filename : String) (path : String)
  | errorResponse (status : Nat) (error : String)
deriving DecidableEq, Repr

/-- Whether a response is the success case. -/
def UploadResponse.isSuccess : UploadResponse → Bool
  | UploadResponse.fileResponse _ _ _ _ => true
  | UploadResponse.errorResponse _ _ => false

/-- The suggested download filename carried by a success response. -/
def UploadResponse.filenameHint : UploadResponse → Option String
  | UploadResponse.fileResponse _ _ fn _ => some fn
  | UploadResponse.errorResponse _ _ => none

/-- The `/upload` handler (main.py lines 36-76).  `decode` stands for
`Image.open` on the just-written file; since the raw bytes are written
verbatim and nothing else touches the file, it is applied to the uploaded
content directly.  `fontOk` is whether the truetype font loads, `token` the
`uuid4().hex` value drawn for this request, `st` the directories before the
request.  Returns the HTTP response and the directories afterwards.
`mkFileId token filename` is the `file_id` local; the upload write happens
before the decode, so every arm — decode failure, filter failure, save
failure, success — keeps the new `uploads` entry, mirroring the
non-atomicity of the python `try` block. -/
def upload_image (decode : List Nat → Option PILImage) (fontOk : Bool)
    (token filename : String) (content : List Nat) (st : Stores) :
    UploadResponse × Stores :=
  match decode content with
  | none =>
    (UploadResponse.errorResponse 500 ("cannot identify image file " ++ mkFileId token filename),
      { st with uploads := (mkFileId token filename, content) :: st.uploads })
  | some img =>
    match transform fontOk img with
    | Except.error e =>
      (UploadResponse.errorResponse 500 e,
        { st with uploads := (mkFileId token filename, content) :: st.uploads })
    | Except.ok processed_img =>
      match pilSave processed_img (mkFileId token filename) with
      | Except.error e =>
        (UploadResponse.errorResponse 500 e,
          { st with uploads := (mkFileId token filename, content) :: st.uploads })
      | Except.ok fmt =>
        (UploadResponse.fileResponse 200 "image/png" ("processed_" ++ filename)
            (mkFileId token filename),
          { uploads := (mkFileId token filename, content) :: st.uploads,
            processed :=
              (mkFileId token filename, { image := processed_img, format := fmt }) ::
                st.processed })

/-- The `/health` handler (main.py lines 31-34). -/
def health_check : Nat × String := (200, "ok")

/-! ### Helper lemmas about `takeWhile`, `dropWhile` and `pathSuffix` -/

theorem takeWhile_append_all {p : Char → Bool} :
    ∀ (l₁ l₂ : List Char), (∀ c ∈ l₁, p c = true) →
      (l₁ ++ l₂).takeWhile p = l₁ ++ l₂.takeWhile p := by
  intro l₁ l₂ h
  induction l₁ with
  | nil => simp
  | cons a t ih =>
    have ha : p a = true := h a (List.mem_cons_self a t)
    simp [List.takeWhile_cons, ha]
    exact ih fun c hc => h c (List.mem_cons_of_mem a hc)

theorem takeWhile_all {p : Char → Bool} (l : List Char) (h : ∀ c ∈ l, p c = true) :
    l.takeWhile p = l := by
  have := takeWhile_append_all (p := p) l [] h
  simpa using this

theorem takeWhile_nil_of_head {p : Char → Bool} (a : Char) (l : List Char)
    (h : p a = false) : (a :: l).takeWhile p = [] := by
  simp [List.takeWhile_cons, h]

theorem dropWhile_all_neg {p : Char → Bool} (l : List Char) (h : ∀ c ∈ l, p c = false) :
    l.dropWhile p = l := by
  cases l with
  | nil => rfl
  | cons a t => simp [List.dropWhile_cons, h a (List.mem_cons_self a t)]

theorem mem_of_mem_takeWhile {p : Char → Bool} {c : Char} :
    ∀ {l : List Char}, c ∈ l.takeWhile p → c ∈ l ∧ p c = true := by
  intro l
  induction l with
  | nil => intro h; simp at h
  | cons a t ih =>
    intro h
    by_cases ha : p a = true
    · rw [List.takeWhile_cons, if_pos ha] at h
      rcases List.mem_cons.mp h with h1 | h2
      · exact ⟨by simp [h1], h1 ▸ ha⟩
      · rcases ih h2 with ⟨hm, hp⟩
        exact ⟨List.mem_cons_of_mem a hm, hp⟩
    · rw [List.takeWhile_cons, if_neg ha] at h
      simp at h

/-- When a list has no slash, its final path component is the whole list. -/
theorem finalRev_no_slash (l : List Char) (h : ∀ c ∈ l, c ≠ '/') :
    finalRev l = l.reverse := by
  unfold finalRev
  rw [dropWhile_all_neg _ (fun c hc => by simpa using h c (List.mem_reverse.mp hc))]
  exact takeWhile_all _ (fun c hc => by simpa using h c (List.mem_reverse.mp hc))

/-- Shape of a `pathlib` suffix: it is either empty, or a dot followed by a
nonempty run of characters none of which is a dot or a slash. -/
theorem suffixCore_shape (l : List Char) :
    suffixCore l = [] ∨
      ∃ rest : List Char, rest ≠ [] ∧ (∀ c ∈ rest, c ≠ '.' ∧ c ≠ '/') ∧
        suffixCore l = '.' :: rest := by
  unfold suffixCore
  by_cases hc : 0 < ((finalRev l).takeWhile (fun c => c != '.')).length ∧
      ((finalRev l).takeWhile (fun c => c != '.')).length + 1 < (finalRev l).length
  · right
    rw [if_pos hc]
    refine ⟨((finalRev l).takeWhile (fun c => c != '.')).reverse, ?_, ?_, rfl⟩
    · intro hnil
      have h0 : ((finalRev l).takeWhile (fun c => c != '.')).length = 0 := by
        have := congrArg List.length hnil
        simpa using this
      omega
    · intro c hcmem
      have hcpre : c ∈ (finalRev l).takeWhile (fun c => c != '.') :=
        List.mem_reverse.mp hcmem
      have h1 := (mem_of_mem_takeWhile hcpre).2
      have hcf : c ∈ finalRev l := (mem_of_mem_takeWhile hcpre).1
      unfold finalRev at hcf
      have h2 := (mem_of_mem_takeWhile hcf).2
      exact ⟨by simpa using h1, by simpa using h2⟩
  · left
    rw [if_neg hc]

/-- A lowercase hex digit is neither a dot nor a slash. -/
theorem hexChar_ne (c : Char) (h : isHexChar c = true) : c ≠ '.' ∧ c ≠ '/' := by
  constructor
  · intro he; rw [he] at h; exact absurd h (by decide)
  · intro he; rw [he] at h; exact absurd h (by decide)

theorem string_data_append (a b : String) : (a ++ b).data = a.data ++ b.data := rfl

/-- Core of the identifier/extension fact: a dotless, slashless, nonempty
token followed by a suffix-shaped tail has exactly that tail as its suffix. -/
theorem suffixCore_token_append (tok ext : List Char) (hne : tok ≠ [])
    (hall : ∀ c ∈ tok, c ≠ '.' ∧ c ≠ '/')
    (hext : ext = [] ∨
      ∃ rest : List Char, rest ≠ [] ∧ (∀ c ∈ rest, c ≠ '.' ∧ c ≠ '/') ∧
        ext = '.' :: rest) :
    suffixCore (tok ++ ext) = ext := by
  rcases hext with hemp | ⟨rest, hrne, hrest, heq⟩
  · rw [hemp, List.append_nil]
    have hfr : finalRev tok = tok.reverse :=
      finalRev_no_slash tok (fun c hc => (hall c hc).2)
    unfold suffixCore
    rw [hfr]
    rw [takeWhile_all _ (fun c hc => by
      simpa using (hall c (List.mem_reverse.mp hc)).1)]
    rw [if_neg]
    omega
  · rw [heq]
    have hfr : finalRev (tok ++ '.' :: rest) = rest.reverse ++ '.' :: tok.reverse := by
      rw [finalRev_no_slash _ (fun c hc => by
        rcases List.mem_append.mp hc with h1 | h2
        · exact (hall c h1).2
        · rcases List.mem_cons.mp h2 with h3 | h4
          · rw [h3]; decide
          · exact (hrest c h4).2)]
      simp
    unfold suffixCore
    rw [hfr]
    rw [takeWhile_append_all rest.reverse ('.' :: tok.reverse)
      (fun c hc => by simpa using (hrest c (List.mem_reverse.mp hc)).1)]
    rw [takeWhile_nil_of_head '.' tok.reverse (by simp)]
    rw [if_pos]
    · simp
    · constructor
      · simpa using List.length_pos.mpr hrne
      · have htok : 0 < tok.length := List.length_pos.mpr hne
        simp
        omega

/-! ### Concrete fixtures used to exercise the model -/

/-- A possible value of `uuid.uuid4().hex`. -/
def tok0 : String := "0123456789abcdef0123456789abcdef"

/-- Stand-in for the bytes of a baseline JPEG file (RGB, 100 by 100). -/
def jpegBytes : List Nat := [255, 216, 255, 224]

/-- Stand-in for the bytes of a PNG file with an alpha channel
(RGBA, 64 by 64). -/
def rgbaPngBytes : List Nat := [137, 80, 78, 71]

/-- Stand-in for the bytes of a GIF file, which decodes in palette mode
(P, 20 by 20). -/
def gifBytes : List Nat := [71, 73, 70, 56]

/-- The decoded form of `jpegBytes`. -/
def demoJpegImage : PILImage :=
  { width := 100, height := 100, mode := ImgMode.RGB, ops := [] }

/-- The decoded form of `rgbaPngBytes`. -/
def demoRgbaImage : PILImage :=
  { width := 64, height := 64, mode := ImgMode.RGBA, ops := [] }

/-- The decoded form of `gifBytes`: a palette-mode image. -/
def demoPalImage : PILImage :=
  { width := 20, height := 20, mode := ImgMode.P, ops := [] }

/-- A concrete decoder covering the three fixture files; everything else —
including the empty byte string — fails to decode, as `Image.open` does.
Note that, like Pillow, it sniffs the content and ignores the filename. -/
def demoDecode : List Nat → Option PILImage := fun bs =>
  if bs = jpegBytes then
    some demoJpegImage
  else if bs = rgbaPngBytes then
    some demoRgbaImage
  else if bs = gifBytes then
    some demoPalImage
  else
    none

/-- Fresh directories. -/
def emptyStores : Stores := { uploads := [], processed := [] }

/-! ### Characterization lemmas for the handler's four arms -/

theorem upload_image_decode_none (decode : List Nat → Option PILImage) (fontOk : Bool)
    (token filename : String) (content : List Nat) (st : Stores)
    (h : decode content = none) :
    upload_image decode fontOk token filename content st =
      (UploadResponse.errorResponse 500
          ("cannot identify image file " ++ mkFileId token filename),
        { st with uploads := (mkFileId token filename, content) :: st.uploads }) := by
  unfold upload_image
  rw [h]

theorem upload_image_filter_error (decode : List Nat → Option PILImage) (fontOk : Bool)
    (token filename : String) (content : List Nat) (st : Stores) (img : PILImage)
    (e : String) (h : decode content = some img)
    (ht : transform fontOk img = Except.error e) :
    upload_image decode fontOk token filename content st =
      (UploadResponse.errorResponse 500 e,
        { st with uploads := (mkFileId token filename, content) :: st.uploads }) := by
  simp only [upload_image, h, ht]

theorem upload_image_save_error (decode : List Nat → Option PILImage) (fontOk : Bool)
    (token filename : String) (content : List Nat) (st : Stores) (img pimg : PILImage)
    (e : String) (h : decode content = some img)
    (ht : transform fontOk img = Except.ok pimg)
    (hs : pilSave pimg (mkFileId token filename) = Except.error e) :
    upload_image decode fontOk token filename content st =
      (UploadResponse.errorResponse 500 e,
        { st with uploads := (mkFileId token filename, content) :: st.uploads }) := by
  simp only [upload_image, h, ht, hs]

theorem upload_image_save_ok (decode : List Nat → Option PILImage) (fontOk : Bool)
    (token filename : String) (content : List Nat) (st : Stores) (img pimg : PILImage)
    (fmt : ImgFormat) (h : decode content = some img)
    (ht : transform fontOk img = Except.ok pimg)
    (hs : pilSave pimg (mkFileId token filename) = Except.ok fmt) :
    upload_image decode fontOk token filename content st =
      (UploadResponse.fileResponse 200 "image/png" ("processed_" ++ filename)
          (mkFileId token filename),
        { uploads := (mkFileId token filename, content) :: st.uploads,
          processed :=
            (mkFileId token filename, { image := pimg, format := fmt }) ::
              st.processed }) := by
  simp only [upload_image, h, ht, hs]

/-- On a palette image the pipeline stops at the filter, with Pillow's
message, before overlay or save run. -/
theorem transform_palette (fontOk : Bool) (img : PILImage) (h : img.mode = ImgMode.P) :
    transform fontOk img = Except.error "cannot filter palette images" := by
  unfold transform filterSharpen
  rw [if_pos h]

/-- On a non-palette image the pipeline succeeds and yields the sharpened
image with the text overlay in the chosen font. -/
theorem transform_ok (fontOk : Bool) (img : PILImage) (h : img.mode ≠ ImgMode.P) :
    transform fontOk img =
      Except.ok (drawText (sharpened img) (10, 10) "InfraFix AI Preview" "red"
        (if fontOk then FontSpec.truetype "arial.ttf" 24 else FontSpec.fallbackDefault)) := by
  unfold transform filterSharpen
  rw [if_neg h]

/-- A successful pipeline run preserves the decoded image's mode, width and
height. -/
theorem transform_ok_shape (fontOk : Bool) (img pimg : PILImage)
    (h : transform fontOk img = Except.ok pimg) :
    pimg.mode = img.mode ∧ pimg.width = img.width ∧ pimg.height = img.height := by
  by_cases hP : img.mode = ImgMode.P
  · rw [transform_palette fontOk img hP] at h
    exact Except.noConfusion h
  · rw [transform_ok fontOk img hP] at h
    injection h with h2
    rw [← h2]
    exact ⟨rfl, rfl, rfl⟩

/-- `pilSave` succeeds exactly when the extension names a modelled format and
the encoder accepts the image's mode. -/
theorem pilSave_ok_iff (img : PILImage) (path : String) (fmt : ImgFormat) :
    pilSave img path = Except.ok fmt ↔
      formatForExt (strLower (pathSuffix path)) = some fmt ∧ canSave fmt img.mode = true := by
  unfold pilSave
  cases hf : formatForExt (strLower (pathSuffix path)) with
  | none => simp
  | some f =>
    by_cases hc : canSave f img.mode = true
    · simp [hc]
      intro hef
      rw [← hef]
      exact hc
    · simp [hc]
      intro hef
      rw [← hef]
      cases hcb : canSave f img.mode with
      | false => rfl
      | true => exact absurd hcb hc

theorem pathSuffix_mkFileId (token filename : String) (h : isUuidHex token = true) :
    pathSuffix (mkFileId token filename) = pathSuffix filename := by
  have hlen : token.data.length = 32 := by
    have := (Bool.and_eq_true _ _).mp h |>.1
    simpa using this
  have hall : ∀ c ∈ token.data, c ≠ '.' ∧ c ≠ '/' := by
    intro c hc
    have := (Bool.and_eq_true _ _).mp h |>.2
    exact hexChar_ne c (List.all_eq_true.mp this c hc)
  have hne : token.data ≠ [] := by
    intro h0
    rw [h0] at hlen
    simp at hlen
  unfold mkFileId pathSuffix
  rw [string_data_append]
  exact congrArg String.mk
    (suffixCore_token_append token.data (suffixCore filename.data) hne hall
      (suffixCore_shape filename.data))


/-! ### The claims -/

/-- Claim C1, as stated, is false at a concrete input: uploading the JPEG
fixture as `photo.jpg` succeeds, yet the image persisted to the PROCESSED
store is encoded as JPEG, not PNG — `processed_img.save(processed_path)`
derives the format from the identifier's extension, which is the original
upload's extension. -/
theorem c1_png_encoding_counterexample :
    (upload_image demoDecode true tok0 "photo.jpg" jpegBytes emptyStores).fst.isSuccess
        = true ∧
      (upload_image demoDecode true tok0 "photo.jpg" jpegBytes emptyStores).snd.processed.map
          (fun kv => kv.snd.format) = [ImgFormat.jpeg] ∧
      ImgFormat.jpeg ≠ ImgFormat.png := by
  exact ⟨by decide, by decide, by decide⟩

/-- Claim C1 amended: for every successful `/upload` request, the image
persisted to the PROCESSED store is the pipeline's output encoded in the
format Pillow derives from the original filename's (lowercased) extension;
it is PNG exactly when that extension maps to PNG, not regardless of the
input encoding. -/
theorem c1_persisted_format_matches_extension
    (decode : List Nat → Option PILImage) (fontOk : Bool) (token filename : String)
    (content : List Nat) (st : Stores)
    (htok : isUuidHex token = true)
    (hs : (upload_image decode fontOk token filename content st).fst.isSuccess = true) :
    ∃ img pimg fmt, decode content = some img ∧
      transform fontOk img = Except.ok pimg ∧
      formatForExt (strLower (pathSuffix filename)) = some fmt ∧
      (upload_image decode fontOk token filename content st).snd.processed =
        (mkFileId token filename, { image := pimg, format := fmt }) :: st.processed := by
  cases hdec : decode content with
  | none =>
    rw [upload_image_decode_none decode fontOk token filename content st hdec] at hs
    simp [UploadResponse.isSuccess] at hs
  | some img =>
    cases htr : transform fontOk img with
    | error e =>
      rw [upload_image_filter_error decode fontOk token filename content st img e hdec htr]
        at hs
      simp [UploadResponse.isSuccess] at hs
    | ok pimg =>
      cases hsave : pilSave pimg (mkFileId token filename) with
      | error e =>
        rw [upload_image_save_error decode fontOk token filename content st img pimg e hdec
          htr hsave] at hs
        simp [UploadResponse.isSuccess] at hs
      | ok fmt =>
        refine ⟨img, pimg, fmt, rfl, htr, ?_, ?_⟩
        · have hok := (pilSave_ok_iff pimg (mkFileId token filename) fmt).mp hsave
          rw [pathSuffix_mkFileId token filename htok] at hok
          exact hok.1
        · rw [upload_image_save_ok decode fontOk token filename content st img pimg fmt hdec
            htr hsave]

/-- Witness for the amended C1 at the JPEG fixture. -/
theorem c1_persisted_format_matches_extension_witness :
    ∃ img pimg fmt, demoDecode jpegBytes = some img ∧
      transform true img = Except.ok pimg ∧
      formatForExt (strLower (pathSuffix "photo.jpg")) = some fmt ∧
      (upload_image demoDecode true tok0 "photo.jpg" jpegBytes emptyStores).snd.processed =
        (mkFileId tok0 "photo.jpg", { image := pimg, format := fmt }) ::
          emptyStores.processed :=
  c1_persisted_format_matches_extension demoDecode true tok0 "photo.jpg" jpegBytes
    emptyStores (by decide) (by decide)

/-- Claim C2, as stated, is false at a concrete input: the RGBA fixture
decodes as a valid image, but uploading it under the name `fake.jpg` makes
the save step target the JPEG encoder, which rejects mode RGBA, so the
response is a 500 error rather than 200/image/png. -/
theorem c2_rgba_named_jpg_counterexample :
    demoDecode rgbaPngBytes = some demoRgbaImage ∧
      (upload_image demoDecode true tok0 "fake.jpg" rgbaPngBytes emptyStores).fst =
        UploadResponse.errorResponse 500 "cannot write mode RGBA as JPEG" := by
  exact ⟨by decide, by decide⟩

/-- Claim C2 amended: for every upload whose bytes decode as a valid image
whose mode is not palette (the sharpen filter rejects mode P), whose
filename's (lowercased) extension names a registered output format, and
whose decoded mode that format's encoder accepts, the response has status
200 and content type `image/png`. -/
theorem c2_success_response
    (decode : List Nat → Option PILImage) (fontOk : Bool) (token filename : String)
    (content : List Nat) (st : Stores) (img : PILImage) (fmt : ImgFormat)
    (htok : isUuidHex token = true)
    (hdec : decode content = some img)
    (hP : img.mode ≠ ImgMode.P)
    (hfmt : formatForExt (strLower (pathSuffix filename)) = some fmt)
    (hmode : canSave fmt img.mode = true) :
    (upload_image decode fontOk token filename content st).fst =
      UploadResponse.fileResponse 200 "image/png" ("processed_" ++ filename)
        (mkFileId token filename) := by
  have htr := transform_ok fontOk img hP
  have hsave : pilSave
      (drawText (sharpened img) (10, 10) "InfraFix AI Preview" "red"
        (if fontOk then FontSpec.truetype "arial.ttf" 24 else FontSpec.fallbackDefault))
      (mkFileId token filename) = Except.ok fmt := by
    rw [pilSave_ok_iff, pathSuffix_mkFileId token filename htok]
    exact ⟨hfmt, hmode⟩
  rw [upload_image_save_ok decode fontOk token filename content st img _ fmt hdec htr hsave]

/-- Witness for the amended C2 at the JPEG fixture. -/
theorem c2_success_response_witness :
    (upload_image demoDecode true tok0 "photo.jpg" jpegBytes emptyStores).fst =
      UploadResponse.fileResponse 200 "image/png" ("processed_" ++ "photo.jpg")
        (mkFileId tok0 "photo.jpg") :=
  c2_success_response demoDecode true tok0 "photo.jpg" jpegBytes emptyStores demoJpegImage
    ImgFormat.jpeg (by decide) (by decide) (by decide) (by decide) (by decide)

/-- Claim C3: for every upload whose bytes do not decode as an image, the
response has status 500 and carries a non-empty error message. -/
theorem c3_decode_failure_500
    (decode : List Nat → Option PILImage) (fontOk : Bool) (token filename : String)
    (content : List Nat) (st : Stores)
    (h : decode content = none) :
    ∃ e, (upload_image decode fontOk token filename content st).fst =
        UploadResponse.errorResponse 500 e ∧ e ≠ "" := by
  refine ⟨"cannot identify image file " ++ mkFileId token filename, ?_, ?_⟩
  · rw [upload_image_decode_none decode fontOk token filename content st h]
  · intro he
    have hlen : ("cannot identify image file " ++ mkFileId token filename).data.length =
        ("" : String).data.length := by rw [he]
    rw [string_data_append, List.length_append] at hlen
    have h27 : ("cannot identify image file " : String).data.length = 27 := by decide
    have h0 : ("" : String).data.length = 0 := by decide
    omega

/-- Witness for C3 at the spec's concrete scenario: a zero-byte upload named
`empty.png`. -/
theorem c3_decode_failure_500_witness :
    ∃ e, (upload_image demoDecode true tok0 "empty.png" [] emptyStores).fst =
        UploadResponse.errorResponse 500 e ∧ e ≠ "" :=
  c3_decode_failure_500 demoDecode true tok0 "empty.png" [] emptyStores (by decide)

/-- Claim C4: whenever the transformation pipeline runs to completion (the
upload decodes and the request succeeds), the persisted processed image has
the same pixel width and height as the decoded original. -/
theorem c4_dimensions_preserved
    (decode : List Nat → Option PILImage) (fontOk : Bool) (token filename : String)
    (content : List Nat) (st : Stores) (img : PILImage)
    (hdec : decode content = some img)
    (hs : (upload_image decode fontOk token filename content st).fst.isSuccess = true) :
    ∃ enc : EncodedImage,
      (upload_image decode fontOk token filename content st).snd.processed =
          (mkFileId token filename, enc) :: st.processed ∧
        enc.image.width = img.width ∧ enc.image.height = img.height := by
  cases htr : transform fontOk img with
  | error e =>
    rw [upload_image_filter_error decode fontOk token filename content st img e hdec htr]
      at hs
    simp [UploadResponse.isSuccess] at hs
  | ok pimg =>
    cases hsave : pilSave pimg (mkFileId token filename) with
    | error e =>
      rw [upload_image_save_error decode fontOk token filename content st img pimg e hdec
        htr hsave] at hs
      simp [UploadResponse.isSuccess] at hs
    | ok fmt =>
      refine ⟨{ image := pimg, format := fmt }, ?_,
        (transform_ok_shape fontOk img pimg htr).2.1,
        (transform_ok_shape fontOk img pimg htr).2.2⟩
      rw [upload_image_save_ok decode fontOk token filename content st img pimg fmt hdec
        htr hsave]

/-- Witness for C4 at the JPEG fixture. -/
theorem c4_dimensions_preserved_witness :
    ∃ enc : EncodedImage,
      (upload_image demoDecode true tok0 "photo.jpg" jpegBytes emptyStores).snd.processed =
          (mkFileId tok0 "photo.jpg", enc) :: emptyStores.processed ∧
        enc.image.width = demoJpegImage.width ∧ enc.image.height = demoJpegImage.height :=
  c4_dimensions_preserved demoDecode true tok0 "photo.jpg" jpegBytes emptyStores
    demoJpegImage (by decide) (by decide)

/-- Claim C5: the storage identifier is the freshly drawn token with the
original filename's extension appended, and so its extension equals the
original upload's extension; it is used as the key of the upload write on
every request. -/
theorem c5_identifier_extension
    (decode : List Nat → Option PILImage) (fontOk : Bool) (token filename : String)
    (content : List Nat) (st : Stores)
    (htok : isUuidHex token = true) :
    (upload_image decode fontOk token filename content st).snd.uploads.head? =
        some (mkFileId token filename, content) ∧
      mkFileId token filename = token ++ pathSuffix filename ∧
      pathSuffix (mkFileId token filename) = pathSuffix filename := by
  refine ⟨?_, rfl, pathSuffix_mkFileId token filename htok⟩
  cases hdec : decode content with
  | none =>
    rw [upload_image_decode_none decode fontOk token filename content st hdec]
    rfl
  | some img =>
    cases htr : transform fontOk img with
    | error e =>
      rw [upload_image_filter_error decode fontOk token filename content st img e hdec htr]
      rfl
    | ok pimg =>
      cases hsave : pilSave pimg (mkFileId token filename) with
      | error e =>
        rw [upload_image_save_error decode fontOk token filename content st img pimg e hdec
          htr hsave]
        rfl
      | ok fmt =>
        rw [upload_image_save_ok decode fontOk token filename content st img pimg fmt hdec
          htr hsave]
        rfl

/-- Witness for C5 at the JPEG fixture. -/
theorem c5_identifier_extension_witness :
    (upload_image demoDecode true tok0 "photo.jpg" jpegBytes emptyStores).snd.uploads.head?
        = some (mkFileId tok0 "photo.jpg", jpegBytes) ∧
      mkFileId tok0 "photo.jpg" = tok0 ++ pathSuffix "photo.jpg" ∧
      pathSuffix (mkFileId tok0 "photo.jpg") = pathSuffix "photo.jpg" :=
  c5_identifier_extension demoDecode true tok0 "photo.jpg" jpegBytes emptyStores (by decide)

/-- Claim C6: for every successful request, the suggested download filename is
`processed_` concatenated verbatim with the original filename. -/
theorem c6_suggested_filename
    (decode : List Nat → Option PILImage) (fontOk : Bool) (token filename : String)
    (content : List Nat) (st : Stores)
    (hs : (upload_image decode fontOk token filename content st).fst.isSuccess = true) :
    (upload_image decode fontOk token filename content st).fst.filenameHint =
      some ("processed_" ++ filename) := by
  cases hdec : decode content with
  | none =>
    rw [upload_image_decode_none decode fontOk token filename content st hdec] at hs
    simp [UploadResponse.isSuccess] at hs
  | some img =>
    cases htr : transform fontOk img with
    | error e =>
      rw [upload_image_filter_error decode fontOk token filename content st img e hdec htr]
        at hs
      simp [UploadResponse.isSuccess] at hs
    | ok pimg =>
      cases hsave : pilSave pimg (mkFileId token filename) with
      | error e =>
        rw [upload_image_save_error decode fontOk token filename content st img pimg e hdec
          htr hsave] at hs
        simp [UploadResponse.isSuccess] at hs
      | ok fmt =>
        rw [upload_image_save_ok decode fontOk token filename content st img pimg fmt hdec
          htr hsave]
        rfl

/-- Witness for C6 at a filename containing a path-unsafe component. -/
theorem c6_suggested_filename_witness :
    (upload_image demoDecode true tok0 "../evil name.jpg" jpegBytes emptyStores).fst.filenameHint
      = some ("processed_" ++ "../evil name.jpg") :=
  c6_suggested_filename demoDecode true tok0 "../evil name.jpg" jpegBytes emptyStores
    (by decide)

/-- Claim C7: for every successful request, the processed image is stored
under exactly the filename used for the raw upload — the newest entries of
both stores have the same key, the generated identifier. -/
theorem c7_same_key_both_stores
    (decode : List Nat → Option PILImage) (fontOk : Bool) (token filename : String)
    (content : List Nat) (st : Stores)
    (hs : (upload_image decode fontOk token filename content st).fst.isSuccess = true) :
    ((upload_image decode fontOk token filename content st).snd.uploads.head?.map Prod.fst)
        = some (mkFileId token filename) ∧
      ((upload_image decode fontOk token filename content st).snd.processed.head?.map
          Prod.fst)
        = some (mkFileId token filename) := by
  cases hdec : decode content with
  | none =>
    rw [upload_image_decode_none decode fontOk token filename content st hdec] at hs
    simp [UploadResponse.isSuccess] at hs
  | some img =>
    cases htr : transform fontOk img with
    | error e =>
      rw [upload_image_filter_error decode fontOk token filename content st img e hdec htr]
        at hs
      simp [UploadResponse.isSuccess] at hs
    | ok pimg =>
      cases hsave : pilSave pimg (mkFileId token filename) with
      | error e =>
        rw [upload_image_save_error decode fontOk token filename content st img pimg e hdec
          htr hsave] at hs
        simp [UploadResponse.isSuccess] at hs
      | ok fmt =>
        rw [upload_image_save_ok decode fontOk token filename content st img pimg fmt hdec
          htr hsave]
        exact ⟨rfl, rfl⟩

/-- Witness for C7 at the JPEG fixture. -/
theorem c7_same_key_both_stores_witness :
    ((upload_image demoDecode true tok0 "photo.jpg" jpegBytes emptyStores).snd.uploads.head?.map
        Prod.fst)
        = some (mkFileId tok0 "photo.jpg") ∧
      ((upload_image demoDecode true tok0 "photo.jpg" jpegBytes
          emptyStores).snd.processed.head?.map Prod.fst)
        = some (mkFileId tok0 "photo.jpg") :=
  c7_same_key_both_stores demoDecode true tok0 "photo.jpg" jpegBytes emptyStores (by decide)

/-- Claim C8: when the decode step fails, the raw bytes have nevertheless been
written verbatim to the UPLOAD store under the generated identifier, and the
request then returns a 500 error — the upload write is not atomic with
respect to decode failure. -/
theorem c8_upload_written_before_error
    (decode : List Nat → Option PILImage) (fontOk : Bool) (token filename : String)
    (content : List Nat) (st : Stores)
    (h : decode content = none) :
    (upload_image decode fontOk token filename content st).snd.uploads =
        (mkFileId token filename, content) :: st.uploads ∧
      ∃ e, (upload_image decode fontOk token filename content st).fst =
          UploadResponse.errorResponse 500 e := by
  rw [upload_image_decode_none decode fontOk token filename content st h]
  exact ⟨rfl, ⟨_, rfl⟩⟩

/-- Witness for C8 at a non-image upload. -/
theorem c8_upload_written_before_error_witness :
    (upload_image demoDecode true tok0 "notes.txt" [104, 105] emptyStores).snd.uploads =
        (mkFileId tok0 "notes.txt", [104, 105]) :: emptyStores.uploads ∧
      ∃ e, (upload_image demoDecode true tok0 "notes.txt" [104, 105] emptyStores).fst =
          UploadResponse.errorResponse 500 e :=
  c8_upload_written_before_error demoDecode true tok0 "notes.txt" [104, 105] emptyStores
    (by decide)

/-- Claim C9: failure to load `arial.ttf` never fails the request — the
response succeeds or fails exactly as it would with the font available, and
whenever the fontless pipeline runs to a successful save, the image written
is the sharpened original overlaid using the built-in default font. -/
theorem c9_font_fallback
    (decode : List Nat → Option PILImage) (token filename : String)
    (content : List Nat) (st : Stores) :
    ((upload_image decode false token filename content st).fst.isSuccess =
        (upload_image decode true token filename content st).fst.isSuccess) ∧
      (∀ img pimg fmt, decode content = some img →
        transform false img = Except.ok pimg →
        pilSave pimg (mkFileId token filename) = Except.ok fmt →
        pimg = drawText (sharpened img) (10, 10) "InfraFix AI Preview" "red"
            FontSpec.fallbackDefault ∧
          (upload_image decode false token filename content st).snd.processed =
            (mkFileId token filename, { image := pimg, format := fmt }) :: st.processed) := by
  constructor
  · cases hdec : decode content with
    | none =>
      rw [upload_image_decode_none decode false token filename content st hdec,
        upload_image_decode_none decode true token filename content st hdec]
    | some img =>
      by_cases hP : img.mode = ImgMode.P
      · rw [upload_image_filter_error decode false token filename content st img
            "cannot filter palette images" hdec (transform_palette false img hP),
          upload_image_filter_error decode true token filename content st img
            "cannot filter palette images" hdec (transform_palette true img hP)]
      · have htrF := transform_ok false img hP
        have htrT := transform_ok true img hP
        have hps : pilSave
            (drawText (sharpened img) (10, 10) "InfraFix AI Preview" "red"
              (if true then FontSpec.truetype "arial.ttf" 24 else FontSpec.fallbackDefault))
            (mkFileId token filename) =
            pilSave
              (drawText (sharpened img) (10, 10) "InfraFix AI Preview" "red"
                (if false then FontSpec.truetype "arial.ttf" 24 else
                  FontSpec.fallbackDefault))
              (mkFileId token filename) := rfl
        cases hsave : pilSave
            (drawText (sharpened img) (10, 10) "InfraFix AI Preview" "red"
              (if false then FontSpec.truetype "arial.ttf" 24 else FontSpec.fallbackDefault))
            (mkFileId token filename) with
        | error e =>
          rw [upload_image_save_error decode false token filename content st img _ e hdec
            htrF hsave,
            upload_image_save_error decode true token filename content st img _ e hdec
              htrT (hps.trans hsave)]
        | ok fmt =>
          rw [upload_image_save_ok decode false token filename content st img _ fmt hdec
            htrF hsave,
            upload_image_save_ok decode true token filename content st img _ fmt hdec
              htrT (hps.trans hsave)]
  · intro img pimg fmt hdec htr hsave
    have hP : img.mode ≠ ImgMode.P := by
      intro hp
      rw [transform_palette false img hp] at htr
      exact Except.noConfusion htr
    have heq : pimg = drawText (sharpened img) (10, 10) "InfraFix AI Preview" "red"
        FontSpec.fallbackDefault := by
      rw [transform_ok false img hP] at htr
      injection htr with h2
      exact h2.symm
    refine ⟨heq, ?_⟩
    rw [upload_image_save_ok decode false token filename content st img pimg fmt hdec htr
      hsave]

/-- Witness for C9 at the JPEG fixture. -/
theorem c9_font_fallback_witness :
    ((upload_image demoDecode false tok0 "photo.jpg" jpegBytes emptyStores).fst.isSuccess =
        (upload_image demoDecode true tok0 "photo.jpg" jpegBytes
          emptyStores).fst.isSuccess) ∧
      (drawText (sharpened demoJpegImage) (10, 10) "InfraFix AI Preview" "red"
            FontSpec.fallbackDefault =
          drawText (sharpened demoJpegImage) (10, 10) "InfraFix AI Preview" "red"
            FontSpec.fallbackDefault ∧
        (upload_image demoDecode false tok0 "photo.jpg" jpegBytes emptyStores).snd.processed
          = (mkFileId tok0 "photo.jpg",
              { image := drawText (sharpened demoJpegImage) (10, 10) "InfraFix AI Preview"
                  "red" FontSpec.fallbackDefault,
                format := ImgFormat.jpeg }) :: emptyStores.processed) :=
  ⟨(c9_font_fallback demoDecode tok0 "photo.jpg" jpegBytes emptyStores).1,
    (c9_font_fallback demoDecode tok0 "photo.jpg" jpegBytes emptyStores).2 demoJpegImage
      (drawText (sharpened demoJpegImage) (10, 10) "InfraFix AI Preview" "red"
        FontSpec.fallbackDefault)
      ImgFormat.jpeg (by decide) (by rfl) (by rfl)⟩

/-- Claim C10, as stated, is false on its palette slice: a palette-mode GIF
fixture uploaded under the extension-less name `anim` decodes as a valid
image and does return 500, but the failure happens at the sharpen filter
with Pillow's palette message — the save call, the cause the claim names, is
never reached and its `unknown file extension: ` message never produced. -/
theorem c10_palette_counterexample :
    demoDecode gifBytes = some demoPalImage ∧
      pathSuffix "anim" = "" ∧
      (upload_image demoDecode true tok0 "anim" gifBytes emptyStores).fst =
        UploadResponse.errorResponse 500 "cannot filter palette images" ∧
      ("cannot filter palette images" : String) ≠ "unknown file extension: " := by
  exact ⟨by decide, by decide, by decide, by decide⟩

/-- Claim C10 amended: an upload whose filename has no extension returns a
500 error even when its bytes decode as a valid image; when the decoded
image is not palette-mode the cause is the save call receiving an
extension-less target path (error `unknown file extension: `), while
palette-mode images already fail at the sharpen filter. -/
theorem c10_no_extension_500_amended
    (decode : List Nat → Option PILImage) (fontOk : Bool) (token filename : String)
    (content : List Nat) (st : Stores) (img : PILImage)
    (htok : isUuidHex token = true)
    (hext : pathSuffix filename = "")
    (hdec : decode content = some img) :
    (∃ e, (upload_image decode fontOk token filename content st).fst =
        UploadResponse.errorResponse 500 e) ∧
      (img.mode ≠ ImgMode.P →
        (upload_image decode fontOk token filename content st).fst =
          UploadResponse.errorResponse 500 "unknown file extension: ") := by
  by_cases hP : img.mode = ImgMode.P
  · rw [upload_image_filter_error decode fontOk token filename content st img
      "cannot filter palette images" hdec (transform_palette fontOk img hP)]
    exact ⟨⟨"cannot filter palette images", rfl⟩, fun hne => absurd hP hne⟩
  · have htr := transform_ok fontOk img hP
    have hsave : pilSave
        (drawText (sharpened img) (10, 10) "InfraFix AI Preview" "red"
          (if fontOk then FontSpec.truetype "arial.ttf" 24 else FontSpec.fallbackDefault))
        (mkFileId token filename) = Except.error "unknown file extension: " := by
      unfold pilSave
      rw [pathSuffix_mkFileId token filename htok, hext]
      rfl
    rw [upload_image_save_error decode fontOk token filename content st img _
      "unknown file extension: " hdec htr hsave]
    exact ⟨⟨"unknown file extension: ", rfl⟩, fun _ => rfl⟩

/-- Witness for the amended C10: the (non-palette) JPEG fixture uploaded
under the extension-less name `photo`. -/
theorem c10_no_extension_500_amended_witness :
    (∃ e, (upload_image demoDecode true tok0 "photo" jpegBytes emptyStores).fst =
        UploadResponse.errorResponse 500 e) ∧
      (demoJpegImage.mode ≠ ImgMode.P →
        (upload_image demoDecode true tok0 "photo" jpegBytes emptyStores).fst =
          UploadResponse.errorResponse 500 "unknown file extension: ") :=
  c10_no_extension_500_amended demoDecode true tok0 "photo" jpegBytes emptyStores
    demoJpegImage (by decide) (by decide) (by decide)

end Infrafix
